import Mathlib

/-!
Shallow embedding of the textract core pipeline
(`textract/parsers/utils.py`): the unicode-sandwich contract of
`BaseParser` (`encode`, `decode`, `process`) and the external-process
discipline of `ShellParser.run`.

Modelling conventions:
* a Python byte string is a `List Nat` of byte values;
* a Python unicode string is a `List Char` of code points;
* the encoding registry (Python codecs) is an external collaborator,
  modelled as a partial map from encoding names to `Codec`s;
* the chardet detector is an external collaborator, modelled as a
  function from byte strings to a detection result (encoding name plus
  a confidence score);
* the subprocess environment is modelled as a function from a command
  to the finished process (return code, captured stdout, stderr);
* fallible Python calls are `Except TextractError`.
-/

/-- Byte strings: Python `bytes`, one `Nat` per byte. -/
abbrev ByteStr := List Nat

/-- Unicode strings: Python `str`, one `Char` per code point. -/
abbrev UStr := List Char

/-- A codec from Python's encoding registry: encoding one code point
yields its byte sequence, or `none` when the code point is not
representable in this encoding; decoding a byte string yields the
decoded text, or `none` when the bytes are malformed for this
encoding. -/
structure Codec where
  encodeChar : Char → Option ByteStr
  decodeBytes : ByteStr → Option UStr

/-- The encoding registry: a name either resolves to a codec or is
unrecognized. -/
abbrev Registry := String → Option Codec

/-- The value returned by `chardet.detect`: the guessed encoding name
and a confidence score (scaled to a `Nat`; its exact scale is
irrelevant because the code never reads it). -/
structure DetectResult where
  encoding : String
  confidence : Nat

/-- The chardet detector, abstract: any function from bytes to a
detection result. -/
abbrev Detector := ByteStr → DetectResult

/-- Raw content produced by an extractor: Python lets `extract` return
either a byte string or an already-decoded unicode string. -/
inductive RawContent
  | bytes (b : ByteStr)
  | str (s : UStr)
deriving DecidableEq

/-- Errors surfaced by the pipeline. `shellError` is modelled from the
spec: the `textract/exceptions.py` module defining the `ShellError`
class is not among the sources, but its constructor call in
`ShellParser.run` passes exactly the command, return code, stdout and
stderr, and the spec says it carries those four fields. `decodeError`
and `unsupportedEncodingError` are the spec's names for the failures
of `bytes.decode` / `str.encode` (Python's `UnicodeDecodeError` and
`LookupError`). -/
inductive TextractError
  | shellError (command : String) (returncode : Int)
      (stdout : ByteStr) (stderr : ByteStr)
  | decodeError (encoding : String)
  | unsupportedEncodingError (encoding : String)
  | extractionError (msg : String)
deriving DecidableEq

/-- Python `text.encode(encoding, 'ignore')` once the codec is fixed:
each code point contributes its byte sequence, and unencodable code
points contribute nothing (the `'ignore'` error handler drops them
silently). -/
def pyEncodeIgnore (codec : Codec) (text : UStr) : ByteStr :=
  text.flatMap (fun c => (codec.encodeChar c).getD [])

/-- Python `text.encode(encoding, 'ignore')`: an unrecognized encoding
name fails the registry lookup before any code point is touched;
otherwise the codec encodes with the `'ignore'` handler. -/
def strEncode (reg : Registry) (text : UStr) (encoding : String) :
    Except TextractError ByteStr :=
  match reg encoding with
  | none => .error (.unsupportedEncodingError encoding)
  | some codec => .ok (pyEncodeIgnore codec text)

/-- Python `b.decode(encoding)` with the default strict error handler:
an unrecognized encoding name fails the registry lookup; a recognized
codec either decodes the whole byte string or fails naming the
attempted encoding. -/
def bytesDecode (reg : Registry) (b : ByteStr) (encoding : String) :
    Except TextractError UStr :=
  match reg encoding with
  | none => .error (.unsupportedEncodingError encoding)
  | some codec =>
    match codec.decodeBytes b with
    | none => .error (.decodeError encoding)
    | some s => .ok s

namespace BaseParser

/-- `BaseParser.encode(text, encoding)`: `return text.encode(encoding,
'ignore')`. -/
def encode (reg : Registry) (text : UStr) (encoding : String) :
    Except TextractError ByteStr :=
  strEncode reg text encoding

/-- `BaseParser.decode(text)`: return unicode input unchanged; return
`''` for empty bytes; otherwise bind the unused
`max_confidence, max_encoding` pair, run `chardet.detect` and decode
with the guessed encoding name. -/
def decode (reg : Registry) (detect : Detector) :
    RawContent → Except TextractError UStr
  | .str s => .ok s
  | .bytes b =>
    if b = [] then
      .ok []
    else
      let max_pair : Nat × Option String := (0, none)
      let result := detect b
      bytesDecode reg b result.encoding

/-- `BaseParser.process(filename, encoding, **kwargs)`: the unicode
sandwich `extract` → `decode` → `encode`. `extract` is abstract (the
base class raises `NotImplementedError`; child classes override it),
so it is a parameter; `kwargs` is an association list passed through
to it unmodified. -/
def process (reg : Registry) (detect : Detector)
    (extract : String → List (String × String) →
      Except TextractError RawContent)
    (filename : String) (encoding : String)
    (options : List (String × String)) :
    Except TextractError ByteStr := do
  let byte_string ← extract filename options
  let unicode_string ← decode reg detect byte_string
  encode reg unicode_string encoding

end BaseParser

/-- A finished subprocess as `subprocess.Popen(...)` followed by
`communicate()` observes it: return code and the fully drained stdout
and stderr. -/
structure Popen where
  returncode : Int
  stdout : ByteStr
  stderr : ByteStr

namespace ShellParser

/-- `ShellParser.run(command)`: spawn the command, drain both pipes
via `communicate`, raise `ShellError(command, returncode, stdout,
stderr)` on a non-zero return code, else return `(stdout, stderr)`.
The subprocess environment `spawn` is a parameter. -/
def run (spawn : String → Popen) (command : String) :
    Except TextractError (ByteStr × ByteStr) :=
  let pipe := spawn command
  let stdout := pipe.stdout
  let stderr := pipe.stderr
  if pipe.returncode ≠ 0 then
    .error (.shellError command pipe.returncode stdout stderr)
  else
    .ok (stdout, stderr)

end ShellParser

/-- A character is representable in a codec when encoding it
succeeds. -/
def Codec.canEncode (codec : Codec) (c : Char) : Bool :=
  (codec.encodeChar c).isSome

/-- A codec decodes its own clean output back: on any text made only
of representable code points, decoding the encoding recovers the
text. Real registry codecs (ascii, utf-8, latin-1, ...) satisfy
this. -/
def Codec.LeftInv (codec : Codec) : Prop :=
  ∀ cs : UStr, (∀ c ∈ cs, codec.canEncode c) →
    codec.decodeBytes (pyEncodeIgnore codec cs) = some cs

/-- ASCII decoding of a byte string: each byte below 128 becomes the
identical code point, any other byte makes the whole string
malformed. -/
def asciiDecodeList : ByteStr → Option UStr
  | [] => some []
  | n :: ns =>
    if n < 128 then (asciiDecodeList ns).map (fun cs => Char.ofNat n :: cs)
    else none

/-- A concrete ASCII codec for evaluating the development on concrete
inputs: code points below 128 map to the identical byte, bytes below
128 decode to the identical code point, everything else fails. -/
def asciiCodec : Codec where
  encodeChar c := if c.toNat < 128 then some [c.toNat] else none
  decodeBytes := asciiDecodeList

/-- A concrete registry recognizing only `"ascii"`. -/
def testRegistry : Registry := fun n =>
  if n = "ascii" then some asciiCodec else none

/-- A concrete detector always guessing ASCII with the given
confidence score. -/
def constDetector (conf : Nat) : Detector := fun _ =>
  { encoding := "ascii", confidence := conf }

/-- Dropping the unencodable code points first does not change the
output of the `'ignore'` encoder: they contribute no bytes. -/
theorem pyEncodeIgnore_filter (codec : Codec) (text : UStr) :
    pyEncodeIgnore codec text =
      pyEncodeIgnore codec (text.filter codec.canEncode) := by
  induction text with
  | nil => rfl
  | cons c cs ih =>
    by_cases hc : codec.canEncode c
    · cases henc : codec.encodeChar c with
      | none => simp [Codec.canEncode, henc] at hc
      | some bs =>
        simp [pyEncodeIgnore, List.filter_cons, hc, henc] at ih ⊢
        exact ih
    · cases henc : codec.encodeChar c with
      | none =>
        simp [pyEncodeIgnore, List.filter_cons, hc, henc] at ih ⊢
        exact ih
      | some bs => simp [Codec.canEncode, henc] at hc

/-- The concrete ASCII codec decodes its own clean output back. -/
theorem asciiCodec_leftInv : asciiCodec.LeftInv := by
  intro cs h
  induction cs with
  | nil => rfl
  | cons c cs ih =>
    have hc : c.toNat < 128 := by
      have hcE := h c (List.mem_cons_self c cs)
      simpa [Codec.canEncode, asciiCodec] using hcE
    have htail := ih (fun x hx => h x (List.mem_cons_of_mem c hx))
    simp [pyEncodeIgnore, asciiCodec, asciiDecodeList, hc, Char.ofNat_toNat] at htail ⊢
    exact htail

/-- C1: for every filename, target encoding and options mapping,
`BaseParser.process` returns exactly
`encode(decode(extract(filename, **options)), encoding)` — the three
stages linearly composed with no branching or retry — and when any
stage errors, `process` surfaces that same error unchanged with no
partial output. -/
theorem BaseParser.process_is_sandwich (reg : Registry) (detect : Detector)
    (extract : String → List (String × String) →
      Except TextractError RawContent)
    (filename encoding : String) (options : List (String × String)) :
    (BaseParser.process reg detect extract filename encoding options =
      (extract filename options).bind (fun bs =>
        (BaseParser.decode reg detect bs).bind (fun us =>
          BaseParser.encode reg us encoding))) ∧
    (∀ e, extract filename options = .error e →
      BaseParser.process reg detect extract filename encoding options =
        .error e) ∧
    (∀ bs e, extract filename options = .ok bs →
      BaseParser.decode reg detect bs = .error e →
      BaseParser.process reg detect extract filename encoding options =
        .error e) ∧
    (∀ bs us e, extract filename options = .ok bs →
      BaseParser.decode reg detect bs = .ok us →
      BaseParser.encode reg us encoding = .error e →
      BaseParser.process reg detect extract filename encoding options =
        .error e) := by
  have h0 : BaseParser.process reg detect extract filename encoding options =
      (extract filename options).bind (fun bs =>
        (BaseParser.decode reg detect bs).bind (fun us =>
          BaseParser.encode reg us encoding)) := rfl
  refine ⟨h0, ?_, ?_, ?_⟩
  · intro e he
    rw [h0, he]
    rfl
  · intro bs e he hd
    rw [h0, he]
    show (BaseParser.decode reg detect bs).bind (fun us =>
      BaseParser.encode reg us encoding) = .error e
    rw [hd]
    rfl
  · intro bs us e he hd hen
    rw [h0, he]
    show (BaseParser.decode reg detect bs).bind (fun us =>
      BaseParser.encode reg us encoding) = .error e
    rw [hd]
    exact hen

/-- C1 witness: a concrete failing extractor's error surfaces
unchanged through `process`. -/
theorem process_is_sandwich_witness :
    BaseParser.process testRegistry (constDetector 99)
      (fun _ _ => .error (.extractionError "boom")) "sample.txt" "ascii" [] =
      .error (.extractionError "boom") :=
  (BaseParser.process_is_sandwich testRegistry (constDetector 99)
    (fun _ _ => .error (.extractionError "boom")) "sample.txt" "ascii"
    []).2.1 (.extractionError "boom") rfl

/-- C2: `ShellParser.run` returns the `(stdout, stderr)` pair exactly
when the spawned process exits with code 0, and on a non-zero exit
code raises a `ShellError` carrying the original command, the exit
code, the captured stdout and the captured stderr; the non-zero exit
code is the only error path and `spawn` is applied exactly once (no
retry). -/
theorem ShellParser.run_exit_code (spawn : String → Popen)
    (command : String) :
    ((spawn command).returncode = 0 →
      ShellParser.run spawn command =
        .ok ((spawn command).stdout, (spawn command).stderr)) ∧
    ((spawn command).returncode ≠ 0 →
      ShellParser.run spawn command =
        .error (.shellError command (spawn command).returncode
          (spawn command).stdout (spawn command).stderr)) := by
  constructor <;> intro h <;> simp [ShellParser.run, h]

/-- C2 witness: a zero exit code returns the pipes, an exit code 1
raises the `ShellError` with all four fields. -/
theorem run_exit_code_witness :
    ShellParser.run (fun _ => ⟨0, [111, 107], []⟩) "true" =
      .ok ([111, 107], []) ∧
    ShellParser.run (fun _ => ⟨1, [], [98, 97, 100]⟩) "false" =
      .error (.shellError "false" 1 [] [98, 97, 100]) :=
  ⟨(ShellParser.run_exit_code (fun _ => ⟨0, [111, 107], []⟩) "true").1 rfl,
   (ShellParser.run_exit_code (fun _ => ⟨1, [], [98, 97, 100]⟩)
     "false").2 (by decide)⟩

/-- C3: on a non-empty byte string whose detector-guessed encoding is
a registry codec that cannot decode it, `BaseParser.decode` fails with
a `DecodeError` naming the attempted encoding — no fallback encoding
is substituted. -/
theorem BaseParser.decode_malformed (reg : Registry) (detect : Detector)
    (b : ByteStr) (codec : Codec) (hb : b ≠ [])
    (hreg : reg (detect b).encoding = some codec)
    (hfail : codec.decodeBytes b = none) :
    BaseParser.decode reg detect (.bytes b) =
      .error (.decodeError (detect b).encoding) := by
  simp [BaseParser.decode, hb, bytesDecode, hreg, hfail]

/-- C3 witness: the byte 200 is malformed ASCII, and decoding it under
a detector that guesses ASCII fails naming `"ascii"`. -/
theorem decode_malformed_witness :
    BaseParser.decode testRegistry (constDetector 73) (.bytes [200]) =
      .error (.decodeError "ascii") :=
  BaseParser.decode_malformed testRegistry (constDetector 73) [200]
    asciiCodec (by decide) rfl rfl

/-- C4: `BaseParser.encode` with an encoding name the registry does
not recognize raises `UnsupportedEncodingError` instead of silently
defaulting to another encoding. -/
theorem BaseParser.encode_unsupported (reg : Registry) (text : UStr)
    (encoding : String) (h : reg encoding = none) :
    BaseParser.encode reg text encoding =
      .error (.unsupportedEncodingError encoding) := by
  simp [BaseParser.encode, strEncode, h]

/-- C4 witness: `"klingon"` is not in the registry, so encoding under
it fails with `UnsupportedEncodingError "klingon"`. -/
theorem encode_unsupported_witness :
    BaseParser.encode testRegistry (['h', 'i']) "klingon" =
      .error (.unsupportedEncodingError "klingon") :=
  BaseParser.encode_unsupported testRegistry (['h', 'i']) "klingon" rfl

/-- C5: for every recognized target encoding, `BaseParser.encode`
succeeds, and its output is the encoding of the subsequence of the
text made of the code points representable in that encoding — the
unencodable code points are dropped silently and never cause a
failure. -/
theorem BaseParser.encode_lossy (reg : Registry) (text : UStr)
    (encoding : String) (codec : Codec) (h : reg encoding = some codec) :
    BaseParser.encode reg text encoding =
      .ok (pyEncodeIgnore codec (text.filter codec.canEncode)) := by
  rw [BaseParser.encode, strEncode, h, ← pyEncodeIgnore_filter]

/-- C5 witness: encoding `"hé"` as ASCII succeeds and yields only the
byte of `'h'`; the unencodable `'é'` is dropped. -/
theorem encode_lossy_witness :
    BaseParser.encode testRegistry (['h', 'é']) "ascii" = .ok [104] := by
  have h := BaseParser.encode_lossy testRegistry (['h', 'é']) "ascii"
    asciiCodec rfl
  rw [h]
  rfl

/-- C6: `BaseParser.decode` on input that is already a unicode string
returns it unchanged, for every registry and detector — decoding
already-decoded text is a no-op, so decode is idempotent. -/
theorem BaseParser.decode_str_noop (reg : Registry) (detect : Detector)
    (s : UStr) :
    BaseParser.decode reg detect (.str s) = .ok s := rfl

/-- C7: `BaseParser.decode` on an empty byte string returns the empty
unicode string, and the result does not depend on the detector (or the
registry): the detector is never invoked on that input. -/
theorem BaseParser.decode_empty (reg reg' : Registry)
    (detect detect' : Detector) :
    BaseParser.decode reg detect (.bytes []) = .ok [] ∧
    BaseParser.decode reg detect (.bytes []) =
      BaseParser.decode reg' detect' (.bytes []) :=
  ⟨rfl, rfl⟩

/-- C8: for text made only of code points representable in a
recognized encoding whose codec decodes its own clean output back,
and a detector that guesses that encoding on such output,
`decode (encode text enc) = text`. -/
theorem BaseParser.decode_encode_roundtrip (reg : Registry)
    (detect : Detector) (enc : String) (codec : Codec) (text : UStr)
    (hreg : reg enc = some codec) (hinv : codec.LeftInv)
    (hrep : ∀ c ∈ text, codec.canEncode c)
    (hdet : (detect (pyEncodeIgnore codec text)).encoding = enc) :
    BaseParser.encode reg text enc = .ok (pyEncodeIgnore codec text) ∧
    BaseParser.decode reg detect (.bytes (pyEncodeIgnore codec text)) =
      .ok text := by
  constructor
  · rw [BaseParser.encode, strEncode, hreg]
  · by_cases hout : pyEncodeIgnore codec text = []
    · have h1 : codec.decodeBytes (pyEncodeIgnore codec text) = some text :=
        hinv text hrep
      have h2 : codec.decodeBytes (pyEncodeIgnore codec ([] : UStr)) =
          some ([] : UStr) := hinv [] (by intro c hc; cases hc)
      rw [hout] at h1
      have h3 : pyEncodeIgnore codec ([] : UStr) = [] := rfl
      rw [h3] at h2
      have htext : text = [] := by
        have := h1.symm.trans h2
        exact Option.some_injective _ this
      rw [hout, htext]
      rfl
    · rw [show BaseParser.decode reg detect
            (.bytes (pyEncodeIgnore codec text)) =
          bytesDecode reg (pyEncodeIgnore codec text)
            (detect (pyEncodeIgnore codec text)).encoding by
        simp [BaseParser.decode, hout]]
      rw [hdet]
      simp [bytesDecode, hreg, hinv text hrep]

/-- C8 witness: ASCII text `"hi"` encodes to `[104, 105]` and decodes
back to `"hi"` under a detector guessing ASCII. -/
theorem decode_encode_roundtrip_witness :
    BaseParser.encode testRegistry (['h', 'i']) "ascii" =
      .ok [104, 105] ∧
    BaseParser.decode testRegistry (constDetector 80)
      (.bytes [104, 105]) = .ok (['h', 'i']) :=
  BaseParser.decode_encode_roundtrip testRegistry (constDetector 80)
    "ascii" asciiCodec (['h', 'i']) rfl asciiCodec_leftInv (by decide) rfl

/-- C10: on a non-empty byte string the result of `BaseParser.decode`
is the bytes decoded with the detector's guessed encoding name, and
only that name matters: the confidence score is bound to a local
variable that is never read, so two detectors agreeing on the name —
whatever their confidence values — produce identical output. -/
theorem BaseParser.decode_confidence_unread (reg : Registry)
    (d1 d2 : Detector) (b : ByteStr) (hb : b ≠ [])
    (henc : (d1 b).encoding = (d2 b).encoding) :
    BaseParser.decode reg d1 (.bytes b) =
      bytesDecode reg b ((d1 b).encoding) ∧
    BaseParser.decode reg d1 (.bytes b) =
      BaseParser.decode reg d2 (.bytes b) := by
  constructor
  · simp [BaseParser.decode, hb]
  · simp [BaseParser.decode, hb, henc]

/-- C10 witness: detectors guessing ASCII with confidences 99 and 1
decode `[104]` identically, to the bytes decoded as ASCII. -/
theorem decode_confidence_unread_witness :
    BaseParser.decode testRegistry (constDetector 99) (.bytes [104]) =
      bytesDecode testRegistry [104] "ascii" ∧
    BaseParser.decode testRegistry (constDetector 99) (.bytes [104]) =
      BaseParser.decode testRegistry (constDetector 1) (.bytes [104]) :=
  BaseParser.decode_confidence_unread testRegistry (constDetector 99)
    (constDetector 1) [104] (by decide) rfl
